import Mathlib

/-!
Verification of the transform-and-load ETL pipeline (src/etl/etl.py).

The development embeds the pipeline shallowly:
* an executable SHA-256 / HMAC-SHA256 (the `hashlib` / `hmac` calls made by
  `hmac_hash`), validated below against the FIPS-180 and RFC 4231 test vectors;
* `Value`, an untyped scalar as held in a pandas cell (null covers both
  `None` and `NaN`);
* `DataFrame`, a column-oriented frame: a row count plus named columns,
  mirroring the pandas object that the pipeline manipulates column-wise;
* the pipeline functions `hmac_hash`, `fill_defaults`, `transform_df`,
  `ingest_csv_to_postgres`, `write_to_clickhouse` and the `main` driver;
  store writes are modelled as an effect trace, fatal pandas errors
  (KeyError, fillna(None), astype(int) failures) as `Except`.
The HMAC key and the `defaults:` section of /opt/etl/config.yml are runtime
configuration, so every definition is parametrised by them.
-/

set_option maxRecDepth 40000

/-! ### SHA-256 and HMAC-SHA256, executable -/

def w32 (n : Nat) : Nat := n % 4294967296

def rotr (n x : Nat) : Nat := w32 ((x >>> n) ||| (x <<< (32 - n)))

def bS0 (x : Nat) : Nat := rotr 2 x ^^^ rotr 13 x ^^^ rotr 22 x

def bS1 (x : Nat) : Nat := rotr 6 x ^^^ rotr 11 x ^^^ rotr 25 x

def sS0 (x : Nat) : Nat := rotr 7 x ^^^ rotr 18 x ^^^ (x >>> 3)

def sS1 (x : Nat) : Nat := rotr 17 x ^^^ rotr 19 x ^^^ (x >>> 10)

def chF (x y z : Nat) : Nat := (x &&& y) ^^^ ((x ^^^ 4294967295) &&& z)

def majF (x y z : Nat) : Nat := (x &&& y) ^^^ (x &&& z) ^^^ (y &&& z)

def K256 : List Nat :=
  [1116352408, 1899447441, 3049323471, 3921009573, 961987163,
   1508970993, 2453635748, 2870763221, 3624381080, 310598401,
   607225278, 1426881987, 1925078388, 2162078206, 2614888103,
   3248222580, 3835390401, 4022224774, 264347078, 604807628,
   770255983, 1249150122, 1555081692, 1996064986, 2554220882,
   2821834349, 2952996808, 3210313671, 3336571891, 3584528711,
   113926993, 338241895, 666307205, 773529912, 1294757372,
   1396182291, 1695183700, 1986661051, 2177026350, 2456956037,
   2730485921, 2820302411, 3259730800, 3345764771, 3516065817,
   3600352804, 4094571909, 275423344, 430227734, 506948616,
   659060556, 883997877, 958139571, 1322822218, 1537002063,
   1747873779, 1955562222, 2024104815, 2227730452, 2361852424,
   2428436474, 2756734187, 3204031479, 3329325298]

structure H8 where
  a : Nat
  b : Nat
  c : Nat
  d : Nat
  e : Nat
  f : Nat
  g : Nat
  h : Nat
deriving DecidableEq

def initH : H8 :=
  ⟨1779033703, 3144134277, 1013904242, 2773480762,
   1359893119, 2600822924, 528734635, 1541459225⟩

def schedStep (rev : List Nat) : List Nat :=
  w32 (sS1 (rev.getD 1 0) + rev.getD 6 0 + sS0 (rev.getD 14 0) + rev.getD 15 0) :: rev

def schedule (ws : List Nat) : List Nat :=
  (schedStep^[48] ws.reverse).reverse

def bytesToWords : List Nat → List Nat
  | a :: b :: c :: d :: rest => (a * 16777216 + b * 65536 + c * 256 + d) :: bytesToWords rest
  | _ => []

def roundStep (st : H8) (kw : Nat × Nat) : H8 :=
  let t1 := w32 (st.h + bS1 st.e + chF st.e st.f st.g + kw.1 + kw.2)
  let t2 := w32 (bS0 st.a + majF st.a st.b st.c)
  ⟨w32 (t1 + t2), st.a, st.b, st.c, w32 (st.d + t1), st.e, st.f, st.g⟩

def add8 (x y : H8) : H8 :=
  ⟨w32 (x.a + y.a), w32 (x.b + y.b), w32 (x.c + y.c), w32 (x.d + y.d),
   w32 (x.e + y.e), w32 (x.f + y.f), w32 (x.g + y.g), w32 (x.h + y.h)⟩

def processBlock (st : H8) (block : List Nat) : H8 :=
  add8 st ((K256.zip (schedule (bytesToWords block))).foldl roundStep st)

def lenBytes (n : Nat) : List Nat :=
  [n >>> 56 % 256, n >>> 48 % 256, n >>> 40 % 256, n >>> 32 % 256,
   n >>> 24 % 256, n >>> 16 % 256, n >>> 8 % 256, n % 256]

def padMsg (msg : List Nat) : List Nat :=
  msg ++ 128 :: List.replicate ((119 - msg.length % 64) % 64) 0 ++ lenBytes (msg.length * 8)

def toBlocksFuel : Nat → List Nat → List (List Nat)
  | 0, _ => []
  | _, [] => []
  | fuel + 1, bs => bs.take 64 :: toBlocksFuel fuel (bs.drop 64)

def toBlocks (bs : List Nat) : List (List Nat) := toBlocksFuel bs.length bs

def sha256H8 (msg : List Nat) : H8 :=
  (toBlocks (padMsg msg)).foldl processBlock initH

def wordBytes (w : Nat) : List Nat :=
  [w >>> 24 % 256, w >>> 16 % 256, w >>> 8 % 256, w % 256]

def digestBytes (st : H8) : List Nat :=
  wordBytes st.a ++ wordBytes st.b ++ wordBytes st.c ++ wordBytes st.d ++
  wordBytes st.e ++ wordBytes st.f ++ wordBytes st.g ++ wordBytes st.h

def hexDigits : List Char := "0123456789abcdef".data

def nib (n : Nat) : Char := hexDigits.getD (n % 16) '0'

def wordHex (w : Nat) : List Char :=
  [nib (w >>> 28), nib (w >>> 24), nib (w >>> 20), nib (w >>> 16),
   nib (w >>> 12), nib (w >>> 8), nib (w >>> 4), nib w]

def digestHex (st : H8) : String :=
  ⟨wordHex st.a ++ wordHex st.b ++ wordHex st.c ++ wordHex st.d ++
   wordHex st.e ++ wordHex st.f ++ wordHex st.g ++ wordHex st.h⟩

def sha256Bytes (msg : List Nat) : List Nat := digestBytes (sha256H8 msg)

def sha256Hex (msg : List Nat) : String := digestHex (sha256H8 msg)

def utf8Char (c : Char) : List Nat :=
  let n := c.toNat
  if n < 128 then [n]
  else if n < 2048 then [192 + n / 64, 128 + n % 64]
  else if n < 65536 then [224 + n / 4096, 128 + n / 64 % 64, 128 + n % 64]
  else [240 + n / 262144, 128 + n / 4096 % 64, 128 + n / 64 % 64, 128 + n % 64]

def utf8Encode (s : String) : List Nat := (s.data.map utf8Char).flatten

def hmacSha256H8 (key msg : List Nat) : H8 :=
  let k0 := if key.length > 64 then sha256Bytes key else key
  let k := k0 ++ List.replicate (64 - k0.length) 0
  sha256H8 (k.map (fun b => b ^^^ 92) ++ sha256Bytes (k.map (fun b => b ^^^ 54) ++ msg))

def hmacSha256Hex (key msg : List Nat) : String := digestHex (hmacSha256H8 key msg)

namespace Etl

/-! ### Data model -/

/-- A scalar as held in one pandas cell: `null` stands uniformly for the
absence of a value (`None` or `NaN`/`NaT`). -/
inductive Value where
  | null
  | str (s : String)
  | int (n : Int)
  | float (q : Rat)
  | dt (t : Int)
deriving DecidableEq

/-- Python `str(value)` / pandas `astype(str)` rendering of a scalar. -/
def pyStr : Value → String
  | .null => "nan"
  | .str s => s
  | .int n => toString n
  | .float q => if q.den = 1 then toString q.num ++ ".0" else toString q.num ++ "/" ++ toString q.den
  | .dt t => "ts" ++ toString t

/-- A pandas DataFrame: a row count and named columns in order.  Well-formed
frames (`DataFrame.WF`) have distinct column names, each of length `nRows`. -/
structure DataFrame where
  nRows : Nat
  cols : List (String × List Value)
deriving DecidableEq

def DataFrame.getCol? (df : DataFrame) (c : String) : Option (List Value) :=
  (df.cols.find? (fun p => p.1 == c)).map (fun p => p.2)

def DataFrame.getColD (df : DataFrame) (c : String) : List Value :=
  (df.getCol? c).getD []

/-- Membership test `c in df.columns`. -/
def DataFrame.hasCol (df : DataFrame) (c : String) : Bool :=
  (df.getCol? c).isSome

def setColAux (c : String) (xs : List Value) : List (String × List Value) → List (String × List Value)
  | [] => [(c, xs)]
  | (d, ys) :: rest => if d == c then (d, xs) :: rest else (d, ys) :: setColAux c xs rest

/-- Column assignment `df[c] = xs`: replaces the column in place, or appends
a new column at the end. -/
def DataFrame.setCol (df : DataFrame) (c : String) (xs : List Value) : DataFrame :=
  ⟨df.nRows, setColAux c xs df.cols⟩

/-- Scalar column assignment `df[c] = v`: broadcasts over all rows. -/
def DataFrame.setColScalar (df : DataFrame) (c : String) (v : Value) : DataFrame :=
  df.setCol c (List.replicate df.nRows v)

def DataFrame.WF (df : DataFrame) : Prop :=
  (df.cols.map Prod.fst).Nodup ∧ ∀ p ∈ df.cols, p.2.length = df.nRows

/-- The `defaults:` mapping of config.yml (a Python dict: insertion-ordered,
distinct keys). -/
abbrev Policy := List (String × Value)

/-- Dict lookup in the style of `policy.get(c)`, returning an `Option`. -/
def lookup? (policy : Policy) (c : String) : Option Value :=
  (policy.find? (fun p => p.1 == c)).map (fun p => p.2)

/-- Model of `DEFAULTS.get(c)`: Python returns `None` both for a missing key and for an
explicit null entry. -/
def lookupD (policy : Policy) (c : String) : Value :=
  (lookup? policy c).getD .null

/-! ### Anonymizer -/

/-- Model of `hmac_hash` from etl.py: `None` on a null/NaN input, otherwise the
lowercase hex digest of HMAC-SHA256 over `str(value)` under the process-wide
key. -/
def hmac_hash (key : List Nat) (v : Value) : Option String :=
  if v = .null then none else some (hmacSha256Hex key (utf8Encode (pyStr v)))

/-- The map `hmac_hash` performs cell-to-cell (its result stored back into a column). -/
def hmac_hashV (key : List Nat) (v : Value) : Value :=
  match hmac_hash key v with
  | none => .null
  | some s => .str s

/-! ### Imputer / Normalizer -/

/-- Model of `series.fillna(v)`: replace null cells by `v`. -/
def fillna (xs : List Value) (v : Value) : List Value :=
  xs.map (fun x => if x = .null then v else x)

/-- Model of `fill_defaults` from etl.py: for each `(col, val)` of the
defaults dict in order, fill nulls of an existing column, or create an absent
column as the broadcast scalar.  Pandas `df[col].fillna(val)` raises
ValueError whenever `val` is `None`, so a null policy default on an existing
column is a fatal error; on an absent column `df[col] = None` simply creates
an all-null column. -/
def fill_defaults (df : DataFrame) : Policy → Except String DataFrame
  | [] => .ok df
  | p :: rest =>
    if df.hasCol p.1 then
      if p.2 = .null then .error ("fillna: value None for " ++ p.1)
      else fill_defaults (df.setCol p.1 (fillna (df.getColD p.1) p.2)) rest
    else fill_defaults (df.setColScalar p.1 p.2) rest

/-- Call model of `fill_defaults`: pandas column assignment mutates the
argument object in place and the function returns that same object.  First
component: the argument's value as the caller sees it when the call returns
or raises (columns already processed stay filled when a later `fillna(None)`
raises); second component: the call's outcome. -/
def fill_defaults_call (df : DataFrame) : Policy → DataFrame × Except String DataFrame
  | [] => (df, .ok df)
  | p :: rest =>
    if df.hasCol p.1 then
      if p.2 = .null then (df, .error ("fillna: value None for " ++ p.1))
      else fill_defaults_call (df.setCol p.1 (fillna (df.getColD p.1) p.2)) rest
    else fill_defaults_call (df.setColScalar p.1 p.2) rest

def isDig (c : Char) : Bool := 48 ≤ c.toNat && c.toNat ≤ 57

def digitsVal? (cs : List Char) : Option Nat :=
  if cs.isEmpty then none
  else if cs.all isDig then some (cs.foldl (fun a c => a * 10 + (c.toNat - 48)) 0)
  else none

/-- Split a character list on a separator (structural, kernel-reducible). -/
def splitChar (sep : Char) : List Char → List (List Char)
  | [] => [[]]
  | c :: rest =>
    let r := splitChar sep rest
    if c = sep then [] :: r
    else
      match r with
      | h :: t => (c :: h) :: t
      | [] => [[c]]

/-- Decimal-literal parser modelling `pd.to_numeric` on a string: optional
sign, then digits, or digits-dot-digits (either side of the dot may be empty
but not both).  An undotted literal is an integer, a dotted one a float. -/
def parseNum? (s : String) : Option Value :=
  let (sgn, body) : Int × List Char :=
    match s.data with
    | '-' :: rest => (-1, rest)
    | '+' :: rest => (1, rest)
    | cs => (1, cs)
  match splitChar '.' body with
  | [w] => (digitsVal? w).map (fun n => Value.int (sgn * (n : Int)))
  | [w, f] =>
    if w.all isDig && f.all isDig && !(w.isEmpty && f.isEmpty) then
      let wv := (w.foldl (fun a c => a * 10 + (c.toNat - 48)) 0 : Nat)
      let fv := (f.foldl (fun a c => a * 10 + (c.toNat - 48)) 0 : Nat)
      some (Value.float (mkRat (sgn * ((wv * 10 ^ f.length + fv : Nat) : Int)) (10 ^ f.length)))
    else none
  | _ => none

def parseDate? (cs : List Char) : Option Int :=
  match splitChar '-' cs with
  | [y, m, d] => do
    let yv ← digitsVal? y
    let mv ← digitsVal? m
    let dv ← digitsVal? d
    if 1 ≤ mv ∧ mv ≤ 12 ∧ 1 ≤ dv ∧ dv ≤ 31 then
      some (((yv * 13 + mv) * 32 + dv : Nat) * 86400)
    else none
  | _ => none

def parseTime? (cs : List Char) : Option Int :=
  match splitChar ':' cs with
  | [h, m] => do
    let hv ← digitsVal? h
    let mv ← digitsVal? m
    if hv ≤ 23 ∧ mv ≤ 59 then some (hv * 3600 + mv * 60 : Nat) else none
  | [h, m, s] => do
    let hv ← digitsVal? h
    let mv ← digitsVal? m
    let sv ← digitsVal? s
    if hv ≤ 23 ∧ mv ≤ 59 ∧ sv ≤ 59 then some (hv * 3600 + mv * 60 + sv : Nat) else none
  | _ => none

/-- Textual timestamp parser modelling the encodings `pd.to_datetime` accepts:
`Y-M-D`, `Y-M-D H:M`, `Y-M-D H:M:S`; the encoding to an instant is injective
on valid dates. -/
def parseDT? (s : String) : Option Int :=
  match splitChar ' ' s.data with
  | [d] => parseDate? d
  | [d, t] => do
    let dv ← parseDate? d
    let tv ← parseTime? t
    some (dv + tv)
  | _ => none

def ratTrunc (q : Rat) : Int := if q < 0 then -((-q).floor) else q.floor

/-- One cell under `pd.to_numeric(col, errors="coerce")`: numbers pass
through, parsable strings are parsed, anything unparsable becomes null. -/
def toNumericCoerce : Value → Value
  | .null => .null
  | .int n => .int n
  | .float q => .float q
  | .dt t => .int t
  | .str s => (parseNum? s).getD .null

/-- One cell under `pd.to_datetime(col, errors="coerce")`. -/
def toDatetimeCoerce : Value → Value
  | .null => .null
  | .dt t => .dt t
  | .int n => .dt n
  | .float q => .dt q.floor
  | .str s => match parseDT? s with | some t => .dt t | none => .null

/-- Model of `pd.to_datetime(scalar)` with the default `errors="raise"`: used on the
policy default; `None` gives `NaT`, an unparsable string raises. -/
def toDatetimeScalar : Value → Except String Value
  | .null => .ok .null
  | .dt t => .ok (.dt t)
  | .int n => .ok (.dt n)
  | .float q => .ok (.dt q.floor)
  | .str s => match parseDT? s with | some t => .ok (.dt t) | none => .error "to_datetime: unparsable scalar"

/-- One cell under `astype(int)`: floats truncate toward zero; a null or a
leftover string raises. -/
def astypeInt : Value → Except String Value
  | .int n => .ok (.int n)
  | .float q => .ok (.int (ratTrunc q))
  | .dt t => .ok (.int t)
  | .null => .error "astype(int): cannot convert NaN"
  | .str _ => .error "astype(int): invalid literal"

/-! ### Transform stage -/

/-- Column read `df[c]`: a missing column is a fatal KeyError. -/
def getColE (df : DataFrame) (c : String) : Except String (List Value) :=
  match df.getCol? c with
  | some xs => .ok xs
  | none => .error ("KeyError: " ++ c)

/-- The identity step of `transform_df`: if no `id` column exists, synthesize
`hmac_hash(str(pickup_datetime) + "|" + str(trip_distance))` per row;
otherwise rehash each non-null `id` cell in place. -/
def idStage (key : List Nat) (df : DataFrame) : Except String DataFrame :=
  if df.hasCol "id" then
    .ok (df.setCol "id" ((df.getColD "id").map (fun x => if x = .null then .null else hmac_hashV key x)))
  else do
    let pu ← getColE df "pickup_datetime"
    let td ← getColE df "trip_distance"
    .ok (df.setCol "id" (List.zipWith (fun p t => hmac_hashV key (.str (pyStr p ++ "|" ++ pyStr t))) pu td))

/-- Datetime step `df[c] = pd.to_datetime(df[c], errors="coerce").fillna(pd.to_datetime(DEFAULTS.get(c)))`,
performed only when the column exists. -/
def dtStage (policy : Policy) (df : DataFrame) (c : String) : Except String DataFrame :=
  if df.hasCol c then do
    let fv ← toDatetimeScalar (lookupD policy c)
    .ok (df.setCol c (fillna ((df.getColD c).map toDatetimeCoerce) fv))
  else .ok df

/-- Numeric step `df[c] = pd.to_numeric(df[c], errors="coerce").fillna(DEFAULTS.get(c))`;
`fillna(None)` — the policy lacking the key — is a fatal ValueError. -/
def numStage (policy : Policy) (df : DataFrame) (c : String) : Except String DataFrame :=
  if df.hasCol c then
    if lookupD policy c = .null then .error ("fillna: value None for " ++ c)
    else .ok (df.setCol c (fillna ((df.getColD c).map toNumericCoerce) (lookupD policy c)))
  else .ok df

/-- Error-propagating map over a column (`astype` applies the cast to every
cell and raises on the first failure). -/
def mapME (f : Value → Except String Value) : List Value → Except String (List Value)
  | [] => .ok []
  | x :: xs => do
    let y ← f x
    let ys ← mapME f xs
    .ok (y :: ys)

/-- The `passenger_count` variant of `numStage` with a trailing `astype(int)`
over every cell of the filled column. -/
def intStage (policy : Policy) (df : DataFrame) (c : String) : Except String DataFrame :=
  if df.hasCol c then
    if lookupD policy c = .null then .error ("fillna: value None for " ++ c)
    else do
      let xs ← mapME astypeInt (fillna ((df.getColD c).map toNumericCoerce) (lookupD policy c))
      .ok (df.setCol c xs)
  else .ok df

/-- Model of `transform_df` from etl.py: default fill, identity derivation, datetime
parsing for the two instant columns, numeric coercion for the three numeric
columns (passenger_count additionally cast to int), in source order. -/
def transform_df (key : List Nat) (policy : Policy) (df0 : DataFrame) : Except String DataFrame := do
  let df ← fill_defaults df0 policy
  let df ← idStage key df
  let df ← dtStage policy df "pickup_datetime"
  let df ← dtStage policy df "dropoff_datetime"
  let df ← numStage policy df "trip_distance"
  let df ← intStage policy df "passenger_count"
  let df ← numStage policy df "fare_amount"
  .ok df

/-! ### Run controller and stores -/

/-- The fixed target column contract of the analytical store. -/
def target_cols : List String :=
  ["id", "pickup_datetime", "dropoff_datetime", "passenger_count", "trip_distance",
   "rate_code", "store_and_fwd", "payment_type", "fare_amount"]

/-- The loop `for c in target_cols: if c not in df_t.columns: df_t[c] = None`. -/
def ensureTargets (df : DataFrame) : DataFrame :=
  target_cols.foldl (fun d c => if d.hasCol c then d else d.setColScalar c .null) df

/-- Projection `df_t[target_cols]`: select the contract columns in contract order. -/
def project (df : DataFrame) : DataFrame :=
  ⟨df.nRows, target_cols.map (fun c => (c, df.getColD c))⟩

/-- Observable store interactions of one run. -/
inductive Effect where
  | pgInsert (rows : Nat)
  | chInsert (table : String) (df : DataFrame)
  | metric (runId : String) (stage : String) (rows : Nat) (note : String)
  | pgTruncate
deriving DecidableEq

/-- Model of `write_to_clickhouse`: skip the insert entirely on an empty frame and
report 0, otherwise bulk-insert and report `len(df)`. -/
def write_to_clickhouse (df : DataFrame) : List Effect × Nat :=
  if df.nRows = 0 then ([], 0)
  else ([.chInsert "processed_records" df], df.nRows)

/-- Model of `ingest_csv_to_postgres`: a missing source file yields 0 rows and no
insert; a present file bulk-appends its records (no insert statement is run
for an empty file). -/
def ingest_csv_to_postgres (csv : Option DataFrame) : List Effect × Nat :=
  match csv with
  | none => ([], 0)
  | some d => (if d.nRows = 0 then [] else [.pgInsert d.nRows], d.nRows)

inductive Mode where
  | ingest
  | transform
  | full
  | clear
deriving DecidableEq

/-- The transform branch of `main`: read the staging batch; when empty, emit
the zero-row metric and return early; otherwise transform, force the target
contract, project, write, and emit the row-count metric. -/
def transformBranch (key : List Nat) (policy : Policy) (runId : String) (staged : DataFrame) :
    List Effect × Except String Unit :=
  if staged.nRows = 0 then ([.metric runId "transform" 0 "no rows"], .ok ())
  else
    match transform_df key policy staged with
    | .error e => ([], .error e)
    | .ok dft =>
      let p := project (ensureTargets dft)
      let wr := write_to_clickhouse p
      (wr.1 ++ [.metric runId "transform" wr.2 "Postgres -> ClickHouse"], .ok ())

/-- Model of `main`: one fresh `run_id` for the whole invocation; the ingest branch for
modes ingest/full, the transform branch for modes transform/full, truncation
for clear.  `csv` is the source file's batch (none: file absent) and `staged`
is the batch `read_from_postgres` returns.  Result: the effect trace and
whether the run completed without a fatal error. -/
def mainRun (key : List Nat) (policy : Policy) (mode : Mode) (runId : String)
    (csv : Option DataFrame) (staged : DataFrame) : List Effect × Except String Unit :=
  let ing :=
    if mode = .ingest ∨ mode = .full then
      (ingest_csv_to_postgres csv).1 ++
        [.metric runId "ingest" (ingest_csv_to_postgres csv).2 "CSV -> Postgres"]
    else []
  let tr := if mode = .transform ∨ mode = .full then transformBranch key policy runId staged else ([], .ok ())
  let cl := if mode = .clear then [Effect.pgTruncate] else []
  (ing ++ tr.1 ++ cl, tr.2)

/-- The metrics of a trace for one stage, as (run id, row count) pairs. -/
def metricsOf (stage : String) : List Effect → List (String × Nat)
  | [] => []
  | .metric r s n _ :: rest => if s = stage then (r, n) :: metricsOf stage rest else metricsOf stage rest
  | _ :: rest => metricsOf stage rest

/-- The analytical-record inserts of a trace. -/
def chInsertsOf : List Effect → List DataFrame
  | [] => []
  | .chInsert _ d :: rest => d :: chInsertsOf rest
  | _ :: rest => chInsertsOf rest

/-! ### Concrete batches and policies used in witnesses -/

/-- A sample anonymization key (the key is runtime configuration). -/
def keyEx : List Nat := utf8Encode "k"

/-- The staged batch of the spec's fill-before-coerce scenario. -/
def dfScenario : DataFrame :=
  ⟨1, [("pickup_datetime", [.str "2024-03-01 10:00"]),
       ("trip_distance", [.str "abc"]),
       ("passenger_count", [.null])]⟩

/-- The policy of the spec's fill-before-coerce scenario. -/
def polScenario : Policy := [("trip_distance", .float 1), ("passenger_count", .int 1)]

/-- A staged batch lacking the contract columns `id`, `rate_code`, ... -/
def dfNoId : DataFrame :=
  ⟨1, [("pickup_datetime", [.str "2024-03-01 10:00"]),
       ("trip_distance", [.str "2.5"])]⟩

def polNoId : Policy := [("trip_distance", .float 1)]

/-- A one-row batch whose `passenger_count` cell is a non-numeric string,
with a fractional policy default for that column. -/
def dfPc : DataFrame := ⟨1, [("id", [.str "x"]), ("passenger_count", [.str "abc"])]⟩

def polPc : Policy := [("passenger_count", .float (mkRat 1 2))]

/-- A batch holding a null that the policy fills: its frame value changes
under `fill_defaults`. -/
def dfMut : DataFrame := ⟨1, [("passenger_count", [.null])]⟩

def polMut : Policy := [("passenger_count", .int 1)]

/-- A policy carrying a null default for a column `dfMut` does have: pandas
`fillna(None)` raises there. -/
def polNullDef : Policy := [("passenger_count", .null)]

/-- The frame `fill_defaults dfScenario polFull` returns. -/
def dfScenarioFilled : DataFrame :=
  ⟨1, [("pickup_datetime", [.str "2024-03-01 10:00"]),
       ("trip_distance", [.str "abc"]),
       ("passenger_count", [.int 1]),
       ("dropoff_datetime", [.str "2024-01-01"]),
       ("fare_amount", [.float 0])]⟩

/-- The frame `fill_defaults dfTwin polFull` returns. -/
def dfTwinFilled : DataFrame :=
  ⟨2, [("pickup_datetime", [.str "2024-03-01 10:00", .str "2024-03-01 10:00"]),
       ("trip_distance", [.str "2.5", .str "2.5"]),
       ("fare_amount", [.str "12.5", .float 0]),
       ("dropoff_datetime", [.str "2024-01-01", .str "2024-01-01"]),
       ("passenger_count", [.int 1, .int 1])]⟩

/-- An empty staging read (columns present, zero rows). -/
def dfEmpty : DataFrame := ⟨0, [("pickup_datetime", []), ("trip_distance", [])]⟩

/-- A two-row staged batch whose rows agree on `(pickup_datetime, trip_distance)`. -/
def dfTwin : DataFrame :=
  ⟨2, [("pickup_datetime", [.str "2024-03-01 10:00", .str "2024-03-01 10:00"]),
       ("trip_distance", [.str "2.5", .str "2.5"]),
       ("fare_amount", [.str "12.5", .null])]⟩

/-- A full policy as config.yml's defaults section would supply. -/
def polFull : Policy :=
  [("pickup_datetime", .str "2024-01-01"), ("dropoff_datetime", .str "2024-01-01"),
   ("trip_distance", .float 0), ("passenger_count", .int 1), ("fare_amount", .float 0)]

/-! ## Frame lemmas -/

theorem getCol?_setCol_self (df : DataFrame) (c : String) (xs : List Value) :
    (df.setCol c xs).getCol? c = some xs := by
  show ((setColAux c xs df.cols).find? (fun p => p.1 == c)).map (fun p => p.2) = some xs
  induction df.cols with
  | nil => simp [setColAux]
  | cons hd tl ih =>
    obtain ⟨d, ys⟩ := hd
    by_cases h : d = c
    · simp [setColAux, h]
    · simp [setColAux, h, ih]

theorem getCol?_setCol_ne (df : DataFrame) (c c' : String) (xs : List Value) (h : c' ≠ c) :
    (df.setCol c xs).getCol? c' = df.getCol? c' := by
  have h' : c ≠ c' := Ne.symm h
  show ((setColAux c xs df.cols).find? (fun p => p.1 == c')).map (fun p => p.2)
      = (df.cols.find? (fun p => p.1 == c')).map (fun p => p.2)
  induction df.cols with
  | nil => simp [setColAux, h']
  | cons hd tl ih =>
    obtain ⟨d, ys⟩ := hd
    by_cases hdc : d = c
    · subst hdc
      simp [setColAux, h']
    · simp only [setColAux]
      rw [if_neg (by simpa using hdc)]
      by_cases hdc' : d = c'
      · simp [hdc']
      · simp [hdc', ih]

theorem nRows_setCol (df : DataFrame) (c : String) (xs : List Value) :
    (df.setCol c xs).nRows = df.nRows := rfl

theorem hasCol_setCol_ne (df : DataFrame) (c c' : String) (xs : List Value) (h : c' ≠ c) :
    (df.setCol c xs).hasCol c' = df.hasCol c' := by
  simp [DataFrame.hasCol, getCol?_setCol_ne df c c' xs h]

theorem fillna_get? (xs : List Value) (v : Value) (i : Nat) :
    (fillna xs v).get? i = (xs.get? i).map (fun x => if x = .null then v else x) := by
  simp [fillna]

/-! ## fill_defaults lemmas -/

theorem fill_defaults_nRows (policy : Policy) (df t : DataFrame)
    (hok : fill_defaults df policy = .ok t) : t.nRows = df.nRows := by
  induction policy generalizing df with
  | nil =>
    cases hok
    rfl
  | cons p tl ih =>
    unfold fill_defaults at hok
    by_cases hh : df.hasCol p.1
    · rw [if_pos hh] at hok
      by_cases hnull : p.2 = .null
      · rw [if_pos hnull] at hok
        cases hok
      · rw [if_neg hnull] at hok
        exact ih (df.setCol p.1 (fillna (df.getColD p.1) p.2)) hok
    · rw [if_neg hh] at hok
      exact ih (df.setColScalar p.1 p.2) hok

theorem lookup?_eq_none (policy : Policy) (c : String)
    (h : c ∉ policy.map Prod.fst) : lookup? policy c = none := by
  induction policy with
  | nil => rfl
  | cons p tl ih =>
    simp only [List.map_cons, List.mem_cons, not_or] at h
    have hb : (p.1 == c) = false := by simp [Ne.symm h.1]
    have htl := ih h.2
    simp only [lookup?] at htl
    simp only [lookup?, List.find?, hb]
    exact htl

theorem fill_defaults_unnamed (policy : Policy) (df t : DataFrame) (c : String)
    (h : lookup? policy c = none) (hok : fill_defaults df policy = .ok t) :
    t.getCol? c = df.getCol? c := by
  induction policy generalizing df with
  | nil =>
    cases hok
    rfl
  | cons p tl ih =>
    obtain ⟨c0, v0⟩ := p
    have hpc : c0 ≠ c := by
      intro he
      simp [lookup?, List.find?, he] at h
    have htl : lookup? tl c = none := by
      have hb : (c0 == c) = false := by simp [hpc]
      simp only [lookup?, List.find?, hb] at h
      simpa [lookup?] using h
    unfold fill_defaults at hok
    by_cases hh : df.hasCol c0
    · rw [if_pos hh] at hok
      by_cases hnull : v0 = .null
      · rw [if_pos hnull] at hok
        cases hok
      · rw [if_neg hnull] at hok
        rw [ih _ htl hok]
        exact getCol?_setCol_ne _ _ _ _ (Ne.symm hpc)
    · rw [if_neg hh] at hok
      rw [ih _ htl hok]
      exact getCol?_setCol_ne _ _ _ _ (Ne.symm hpc)

theorem fill_defaults_named_present (policy : Policy) (df t : DataFrame) (c : String)
    (v : Value) (col : List Value)
    (hnd : (policy.map Prod.fst).Nodup) (hv : lookup? policy c = some v)
    (hcol : df.getCol? c = some col) (hok : fill_defaults df policy = .ok t) :
    t.getCol? c = some (fillna col v) := by
  induction policy generalizing df col with
  | nil => cases hv
  | cons p tl ih =>
    obtain ⟨c0, v0⟩ := p
    simp only [List.map_cons, List.nodup_cons] at hnd
    unfold fill_defaults at hok
    by_cases hc : c0 = c
    · subst hc
      have hv0 : v = v0 := by
        simp [lookup?, List.find?] at hv
        exact hv.symm
      have hhas : df.hasCol c0 = true := by simp [DataFrame.hasCol, hcol]
      rw [if_pos hhas] at hok
      by_cases hnull : v0 = .null
      · rw [if_pos hnull] at hok
        cases hok
      · rw [if_neg hnull] at hok
        have hgd : df.getColD c0 = col := by simp [DataFrame.getColD, hcol]
        rw [hgd] at hok
        have htl : lookup? tl c0 = none := lookup?_eq_none tl c0 hnd.1
        rw [fill_defaults_unnamed tl _ t c0 htl hok, getCol?_setCol_self, hv0]
    · have hb : (c0 == c) = false := by simp [hc]
      have htl : lookup? tl c = some v := by
        simp only [lookup?, List.find?, hb] at hv
        simpa [lookup?] using hv
      by_cases hh : df.hasCol c0
      · rw [if_pos hh] at hok
        by_cases hnull : v0 = .null
        · rw [if_pos hnull] at hok
          cases hok
        · rw [if_neg hnull] at hok
          exact ih _ col hnd.2 htl ((getCol?_setCol_ne _ _ _ _ (Ne.symm hc)).trans hcol) hok
      · rw [if_neg hh] at hok
        exact ih _ col hnd.2 htl ((getCol?_setCol_ne _ _ _ _ (Ne.symm hc)).trans hcol) hok

theorem fill_defaults_named_absent (policy : Policy) (df t : DataFrame) (c : String)
    (v : Value)
    (hnd : (policy.map Prod.fst).Nodup) (hv : lookup? policy c = some v)
    (habs : df.getCol? c = none) (hok : fill_defaults df policy = .ok t) :
    t.getCol? c = some (List.replicate df.nRows v) := by
  induction policy generalizing df with
  | nil => cases hv
  | cons p tl ih =>
    obtain ⟨c0, v0⟩ := p
    simp only [List.map_cons, List.nodup_cons] at hnd
    unfold fill_defaults at hok
    by_cases hc : c0 = c
    · subst hc
      have hv0 : v = v0 := by
        simp [lookup?, List.find?] at hv
        exact hv.symm
      have hhas : df.hasCol c0 = false := by simp [DataFrame.hasCol, habs]
      rw [if_neg (by simp [hhas])] at hok
      have htl : lookup? tl c0 = none := lookup?_eq_none tl c0 hnd.1
      rw [fill_defaults_unnamed tl _ t c0 htl hok]
      rw [show (df.setColScalar c0 v0).getCol? c0 = some (List.replicate df.nRows v0) from
        getCol?_setCol_self _ _ _]
      rw [hv0]
    · have hb : (c0 == c) = false := by simp [hc]
      have htl : lookup? tl c = some v := by
        simp only [lookup?, List.find?, hb] at hv
        simpa [lookup?] using hv
      by_cases hh : df.hasCol c0
      · rw [if_pos hh] at hok
        by_cases hnull : v0 = .null
        · rw [if_pos hnull] at hok
          cases hok
        · rw [if_neg hnull] at hok
          exact ih (df.setCol c0 (fillna (df.getColD c0) v0)) hnd.2 htl
            ((getCol?_setCol_ne _ _ _ _ (Ne.symm hc)).trans habs) hok
      · rw [if_neg hh] at hok
        exact ih (df.setColScalar c0 v0) hnd.2 htl
          ((getCol?_setCol_ne _ _ _ _ (Ne.symm hc)).trans habs) hok

theorem fill_defaults_cell_nonnull (policy : Policy) (df t : DataFrame) (c : String)
    (col : List Value) (i : Nat) (x : Value)
    (hcol : df.getCol? c = some col) (hx : col.get? i = some x) (hnn : x ≠ .null)
    (hok : fill_defaults df policy = .ok t) :
    ∃ col', t.getCol? c = some col' ∧ col'.get? i = some x := by
  induction policy generalizing df col with
  | nil =>
    cases hok
    exact ⟨col, hcol, hx⟩
  | cons p tl ih =>
    obtain ⟨c0, v0⟩ := p
    unfold fill_defaults at hok
    by_cases hc : c0 = c
    · subst hc
      have hhas : df.hasCol c0 = true := by simp [DataFrame.hasCol, hcol]
      rw [if_pos hhas] at hok
      by_cases hnull : v0 = .null
      · rw [if_pos hnull] at hok
        cases hok
      · rw [if_neg hnull] at hok
        have hgd : df.getColD c0 = col := by simp [DataFrame.getColD, hcol]
        rw [hgd] at hok
        refine ih _ (fillna col v0) (getCol?_setCol_self _ _ _) ?_ hok
        rw [fillna_get?, hx]
        simp [hnn]
    · by_cases hh : df.hasCol c0
      · rw [if_pos hh] at hok
        by_cases hnull : v0 = .null
        · rw [if_pos hnull] at hok
          cases hok
        · rw [if_neg hnull] at hok
          exact ih _ col ((getCol?_setCol_ne _ _ _ _ (Ne.symm hc)).trans hcol) hx hok
      · rw [if_neg hh] at hok
        exact ih _ col ((getCol?_setCol_ne _ _ _ _ (Ne.symm hc)).trans hcol) hx hok

theorem fill_defaults_ok_null_absent (policy : Policy) (df t : DataFrame) (c : String)
    (hv : lookup? policy c = some .null) (hok : fill_defaults df policy = .ok t) :
    df.hasCol c = false := by
  induction policy generalizing df with
  | nil => cases hv
  | cons p tl ih =>
    obtain ⟨c0, v0⟩ := p
    unfold fill_defaults at hok
    by_cases hc : c0 = c
    · subst hc
      have hv0 : v0 = Value.null := by
        simp [lookup?, List.find?] at hv
        exact hv
      by_cases hh : df.hasCol c0
      · rw [if_pos hh, if_pos hv0] at hok
        cases hok
      · rw [Bool.not_eq_true] at hh
        exact hh
    · have hb : (c0 == c) = false := by simp [hc]
      have htl : lookup? tl c = some .null := by
        simp only [lookup?, List.find?, hb] at hv
        simpa [lookup?] using hv
      by_cases hh : df.hasCol c0
      · rw [if_pos hh] at hok
        by_cases hnull : v0 = .null
        · rw [if_pos hnull] at hok
          cases hok
        · rw [if_neg hnull] at hok
          have hrec := ih _ htl hok
          have h2 : (df.setCol c0 (fillna (df.getColD c0) v0)).hasCol c = df.hasCol c :=
            hasCol_setCol_ne _ _ _ _ (Ne.symm hc)
          rw [h2] at hrec
          exact hrec
      · rw [if_neg hh] at hok
        have hrec := ih _ htl hok
        have h2 : (df.setColScalar c0 v0).hasCol c = df.hasCol c :=
          hasCol_setCol_ne _ _ _ _ (Ne.symm hc)
        rw [h2] at hrec
        exact hrec

theorem fill_defaults_total (policy : Policy) (df : DataFrame)
    (hnd : (policy.map Prod.fst).Nodup)
    (h : ∀ p ∈ policy, p.2 = Value.null → df.hasCol p.1 = false) :
    ∃ t, fill_defaults df policy = .ok t := by
  induction policy generalizing df with
  | nil => exact ⟨df, rfl⟩
  | cons p tl ih =>
    obtain ⟨c0, v0⟩ := p
    simp only [List.map_cons, List.nodup_cons] at hnd
    unfold fill_defaults
    by_cases hh : df.hasCol c0
    · have hnn : ¬v0 = Value.null := by
        intro he
        have hf := h (c0, v0) (by simp) he
        rw [hf] at hh
        simp at hh
      rw [if_pos hh, if_neg hnn]
      refine ih _ hnd.2 ?_
      intro q hq hqn
      have hq0 := h q (by simp [hq]) hqn
      have hne : q.1 ≠ c0 := by
        intro he
        exact hnd.1 (he ▸ List.mem_map_of_mem Prod.fst hq)
      have h2 : (df.setCol c0 (fillna (df.getColD c0) v0)).hasCol q.1 = df.hasCol q.1 :=
        hasCol_setCol_ne _ _ _ _ hne
      rw [h2]
      exact hq0
    · rw [if_neg hh]
      refine ih _ hnd.2 ?_
      intro q hq hqn
      have hq0 := h q (by simp [hq]) hqn
      have hne : q.1 ≠ c0 := by
        intro he
        exact hnd.1 (he ▸ List.mem_map_of_mem Prod.fst hq)
      have h2 : (df.setColScalar c0 v0).hasCol q.1 = df.hasCol q.1 :=
        hasCol_setCol_ne _ _ _ _ hne
      rw [h2]
      exact hq0

theorem fill_defaults_call_ok (policy : Policy) (df t : DataFrame)
    (hok : fill_defaults df policy = .ok t) :
    fill_defaults_call df policy = (t, .ok t) := by
  induction policy generalizing df with
  | nil =>
    cases hok
    rfl
  | cons p tl ih =>
    unfold fill_defaults at hok
    unfold fill_defaults_call
    by_cases hh : df.hasCol p.1
    · rw [if_pos hh] at hok ⊢
      by_cases hnull : p.2 = .null
      · rw [if_pos hnull] at hok
        cases hok
      · rw [if_neg hnull] at hok ⊢
        exact ih _ hok
    · rw [if_neg hh] at hok ⊢
      exact ih _ hok

/-! ## Transform-stage lemmas -/

theorem idStage_ok (key : List Nat) (df t : DataFrame) (h : idStage key df = .ok t) :
    t.nRows = df.nRows ∧ ∀ c, c ≠ "id" → t.getCol? c = df.getCol? c := by
  unfold idStage at h
  by_cases hid : df.hasCol "id"
  · rw [if_pos hid] at h
    cases h
    exact ⟨rfl, fun c hc => getCol?_setCol_ne _ _ _ _ hc⟩
  · rw [if_neg hid] at h
    cases hpu : DataFrame.getCol? df "pickup_datetime" with
    | none => simp [getColE, hpu, Bind.bind, Except.bind] at h
    | some pu =>
      cases htd : DataFrame.getCol? df "trip_distance" with
      | none => simp [getColE, hpu, htd, Bind.bind, Except.bind] at h
      | some td =>
        simp only [getColE, hpu, htd, Bind.bind, Except.bind] at h
        cases h
        exact ⟨rfl, fun c hc => getCol?_setCol_ne _ _ _ _ hc⟩

theorem idStage_synth (key : List Nat) (df t : DataFrame)
    (h : idStage key df = .ok t) (hid : df.hasCol "id" = false) :
    ∃ pu td, df.getCol? "pickup_datetime" = some pu ∧ df.getCol? "trip_distance" = some td ∧
      t.getCol? "id" =
        some (List.zipWith (fun p d => hmac_hashV key (.str (pyStr p ++ "|" ++ pyStr d))) pu td) := by
  unfold idStage at h
  rw [if_neg (by simp [hid])] at h
  cases hpu : DataFrame.getCol? df "pickup_datetime" with
  | none => simp [getColE, hpu, Bind.bind, Except.bind] at h
  | some pu =>
    cases htd : DataFrame.getCol? df "trip_distance" with
    | none => simp [getColE, hpu, htd, Bind.bind, Except.bind] at h
    | some td =>
      simp only [getColE, hpu, htd, Bind.bind, Except.bind] at h
      cases h
      exact ⟨pu, td, rfl, rfl, getCol?_setCol_self _ _ _⟩

theorem dtStage_ok (policy : Policy) (df t : DataFrame) (c0 : String)
    (h : dtStage policy df c0 = .ok t) :
    t.nRows = df.nRows ∧ ∀ c, c ≠ c0 → t.getCol? c = df.getCol? c := by
  unfold dtStage at h
  by_cases hhc : df.hasCol c0
  · rw [if_pos hhc] at h
    cases hts : toDatetimeScalar (lookupD policy c0) with
    | error e => simp [hts, Bind.bind, Except.bind] at h
    | ok fv =>
      simp only [hts, Bind.bind, Except.bind] at h
      cases h
      exact ⟨rfl, fun c hc => getCol?_setCol_ne _ _ _ _ hc⟩
  · rw [if_neg hhc] at h
    cases h
    exact ⟨rfl, fun c _ => rfl⟩

theorem numStage_ok (policy : Policy) (df t : DataFrame) (c0 : String)
    (h : numStage policy df c0 = .ok t) :
    t.nRows = df.nRows ∧ ∀ c, c ≠ c0 → t.getCol? c = df.getCol? c := by
  unfold numStage at h
  by_cases hhc : df.hasCol c0
  · rw [if_pos hhc] at h
    by_cases hnull : lookupD policy c0 = .null
    · rw [if_pos hnull] at h
      cases h
    · rw [if_neg hnull] at h
      cases h
      exact ⟨rfl, fun c hc => getCol?_setCol_ne _ _ _ _ hc⟩
  · rw [if_neg hhc] at h
    cases h
    exact ⟨rfl, fun c _ => rfl⟩

theorem numStage_self (policy : Policy) (df t : DataFrame) (c0 : String) (col : List Value)
    (h : numStage policy df c0 = .ok t) (hcol : df.getCol? c0 = some col) :
    lookupD policy c0 ≠ .null ∧
      t.getCol? c0 = some (fillna (col.map toNumericCoerce) (lookupD policy c0)) := by
  unfold numStage at h
  rw [if_pos (by simp [DataFrame.hasCol, hcol])] at h
  by_cases hnull : lookupD policy c0 = .null
  · rw [if_pos hnull] at h
    cases h
  · rw [if_neg hnull] at h
    cases h
    refine ⟨hnull, ?_⟩
    have hgd : df.getColD c0 = col := by simp [DataFrame.getColD, hcol]
    rw [hgd] at *
    exact getCol?_setCol_self _ _ _

theorem intStage_ok (policy : Policy) (df t : DataFrame) (c0 : String)
    (h : intStage policy df c0 = .ok t) :
    t.nRows = df.nRows ∧ ∀ c, c ≠ c0 → t.getCol? c = df.getCol? c := by
  unfold intStage at h
  by_cases hhc : df.hasCol c0
  · rw [if_pos hhc] at h
    by_cases hnull : lookupD policy c0 = .null
    · rw [if_pos hnull] at h
      cases h
    · rw [if_neg hnull] at h
      cases hm : mapME astypeInt (fillna ((df.getColD c0).map toNumericCoerce) (lookupD policy c0)) with
      | error e => simp [hm, Bind.bind, Except.bind] at h
      | ok xs =>
        simp only [hm, Bind.bind, Except.bind] at h
        cases h
        exact ⟨rfl, fun c hc => getCol?_setCol_ne _ _ _ _ hc⟩
  · rw [if_neg hhc] at h
    cases h
    exact ⟨rfl, fun c _ => rfl⟩

theorem intStage_self (policy : Policy) (df t : DataFrame) (c0 : String) (col : List Value)
    (h : intStage policy df c0 = .ok t) (hcol : df.getCol? c0 = some col) :
    lookupD policy c0 ≠ .null ∧
      ∃ xs, mapME astypeInt (fillna (col.map toNumericCoerce) (lookupD policy c0)) = .ok xs ∧
        t.getCol? c0 = some xs := by
  unfold intStage at h
  rw [if_pos (by simp [DataFrame.hasCol, hcol])] at h
  by_cases hnull : lookupD policy c0 = .null
  · rw [if_pos hnull] at h
    cases h
  · rw [if_neg hnull] at h
    have hgd : df.getColD c0 = col := by simp [DataFrame.getColD, hcol]
    rw [hgd] at h
    cases hm : mapME astypeInt (fillna (col.map toNumericCoerce) (lookupD policy c0)) with
    | error e => simp [hm, Bind.bind, Except.bind] at h
    | ok xs =>
      simp only [hm, Bind.bind, Except.bind] at h
      cases h
      exact ⟨hnull, xs, rfl, getCol?_setCol_self _ _ _⟩

theorem mapME_ok_get? (f : Value → Except String Value) (l ys : List Value)
    (h : mapME f l = .ok ys) (i : Nat) (x : Value) (hx : l.get? i = some x) :
    ∃ y, f x = .ok y ∧ ys.get? i = some y := by
  induction l generalizing ys i with
  | nil => simp at hx
  | cons a l ih =>
    unfold mapME at h
    cases hfa : f a with
    | error e => simp [hfa, Bind.bind, Except.bind] at h
    | ok y =>
      cases hml : mapME f l with
      | error e => simp [hfa, hml, Bind.bind, Except.bind] at h
      | ok zs =>
        simp only [hfa, hml, Bind.bind, Except.bind] at h
        cases h
        cases i with
        | zero =>
          cases hx
          exact ⟨y, hfa, rfl⟩
        | succ n => exact ih zs hml n hx

theorem mapME_ok_of_forall (f : Value → Except String Value) (l : List Value)
    (h : ∀ x ∈ l, (f x).isOk = true) : ∃ ys, mapME f l = .ok ys := by
  induction l with
  | nil => exact ⟨[], rfl⟩
  | cons a l ih =>
    have ha := h a (by simp)
    cases hfa : f a with
    | error e => simp [hfa, Except.isOk, Except.toBool] at ha
    | ok y =>
      obtain ⟨ys, hys⟩ := ih (fun x hx => h x (by simp [hx]))
      exact ⟨y :: ys, by simp [mapME, hfa, hys, Bind.bind, Except.bind]⟩

theorem parseNum?_shape (s : String) (w : Value) (h : parseNum? s = some w) :
    (∃ n, w = .int n) ∨ (∃ q, w = .float q) := by
  unfold parseNum? at h
  split at h
  split at h
  · rw [Option.map_eq_some'] at h
    obtain ⟨n, _, hw⟩ := h
    exact Or.inl ⟨_, hw.symm⟩
  · split at h
    · cases h
      exact Or.inr ⟨_, rfl⟩
    · cases h
  · cases h

theorem toNumericCoerce_intable (x : Value) (h : toNumericCoerce x ≠ .null) :
    (astypeInt (toNumericCoerce x)).isOk = true := by
  cases x with
  | null => exact absurd rfl h
  | int n => rfl
  | float q => rfl
  | dt t => rfl
  | str s =>
    simp only [toNumericCoerce] at h ⊢
    cases hp : parseNum? s with
    | none => simp [hp] at h
    | some w =>
      rcases parseNum?_shape s w hp with ⟨n, hw⟩ | ⟨q, hw⟩ <;>
        simp [hp, hw, astypeInt, Except.isOk, Except.toBool]

/-! ## transform_df structure -/

theorem transform_df_inv (key : List Nat) (policy : Policy) (df t : DataFrame)
    (h : transform_df key policy df = .ok t) :
    ∃ fd d1 d2 d3 d4 d5,
      fill_defaults df policy = .ok fd ∧
      idStage key fd = .ok d1 ∧
      dtStage policy d1 "pickup_datetime" = .ok d2 ∧
      dtStage policy d2 "dropoff_datetime" = .ok d3 ∧
      numStage policy d3 "trip_distance" = .ok d4 ∧
      intStage policy d4 "passenger_count" = .ok d5 ∧
      numStage policy d5 "fare_amount" = .ok t := by
  unfold transform_df at h
  cases h0 : fill_defaults df policy with
  | error e => simp [h0, Bind.bind, Except.bind] at h
  | ok fd =>
    simp only [h0, Bind.bind, Except.bind] at h
    cases h1 : idStage key fd with
    | error e => simp [h1, Bind.bind, Except.bind] at h
    | ok d1 =>
      simp only [h1, Bind.bind, Except.bind] at h
      cases h2 : dtStage policy d1 "pickup_datetime" with
      | error e => simp [h2, Bind.bind, Except.bind] at h
      | ok d2 =>
        simp only [h2, Bind.bind, Except.bind] at h
        cases h3 : dtStage policy d2 "dropoff_datetime" with
        | error e => simp [h3, Bind.bind, Except.bind] at h
        | ok d3 =>
          simp only [h3, Bind.bind, Except.bind] at h
          cases h4 : numStage policy d3 "trip_distance" with
          | error e => simp [h4, Bind.bind, Except.bind] at h
          | ok d4 =>
            simp only [h4, Bind.bind, Except.bind] at h
            cases h5 : intStage policy d4 "passenger_count" with
            | error e => simp [h5, Bind.bind, Except.bind] at h
            | ok d5 =>
              simp only [h5, Bind.bind, Except.bind] at h
              cases h6 : numStage policy d5 "fare_amount" with
              | error e => simp [h6, Bind.bind, Except.bind] at h
              | ok d6 =>
                simp only [h6, Bind.bind, Except.bind] at h
                exact ⟨fd, d1, d2, d3, d4, d5, rfl, h1, h2, h3, h4, h5, by rw [h6]; exact h⟩

theorem transform_df_nRows (key : List Nat) (policy : Policy) (df t : DataFrame)
    (h : transform_df key policy df = .ok t) : t.nRows = df.nRows := by
  obtain ⟨fd, d1, d2, d3, d4, d5, h0, h1, h2, h3, h4, h5, h6⟩ :=
    transform_df_inv key policy df t h
  rw [(numStage_ok policy d5 t _ h6).1, (intStage_ok policy d4 d5 _ h5).1,
    (numStage_ok policy d3 d4 _ h4).1, (dtStage_ok policy d2 d3 _ h3).1,
    (dtStage_ok policy d1 d2 _ h2).1, (idStage_ok key fd d1 h1).1,
    fill_defaults_nRows policy df fd h0]

/-! ## Stage totality -/

theorem idStage_total (key : List Nat) (df : DataFrame)
    (h : df.hasCol "id" = true ∨
      (df.hasCol "pickup_datetime" = true ∧ df.hasCol "trip_distance" = true)) :
    ∃ t, idStage key df = .ok t := by
  unfold idStage
  by_cases hid : df.hasCol "id"
  · rw [if_pos hid]
    exact ⟨_, rfl⟩
  · rw [if_neg hid]
    rcases h with h | ⟨hpu, htd⟩
    · exact absurd h hid
    · obtain ⟨pu, hpu'⟩ := Option.isSome_iff_exists.mp hpu
      obtain ⟨td, htd'⟩ := Option.isSome_iff_exists.mp htd
      rw [show getColE df "pickup_datetime" = .ok pu from by simp [getColE, hpu'],
        show getColE df "trip_distance" = .ok td from by simp [getColE, htd']]
      exact ⟨_, rfl⟩

theorem dtStage_total (policy : Policy) (df : DataFrame) (c : String)
    (h : df.hasCol c = true → (toDatetimeScalar (lookupD policy c)).isOk = true) :
    ∃ t, dtStage policy df c = .ok t := by
  unfold dtStage
  by_cases hc : df.hasCol c
  · rw [if_pos hc]
    have hok := h hc
    cases hts : toDatetimeScalar (lookupD policy c) with
    | error e =>
      rw [hts] at hok
      simp [Except.isOk, Except.toBool] at hok
    | ok fv => exact ⟨_, rfl⟩
  · rw [if_neg hc]
    exact ⟨_, rfl⟩

theorem numStage_total (policy : Policy) (df : DataFrame) (c : String)
    (h : df.hasCol c = true → lookupD policy c ≠ .null) :
    ∃ t, numStage policy df c = .ok t := by
  unfold numStage
  by_cases hc : df.hasCol c
  · rw [if_pos hc, if_neg (h hc)]
    exact ⟨_, rfl⟩
  · rw [if_neg hc]
    exact ⟨_, rfl⟩

theorem intStage_total (policy : Policy) (df : DataFrame) (c : String)
    (h : df.hasCol c = true → (astypeInt (lookupD policy c)).isOk = true) :
    ∃ t, intStage policy df c = .ok t := by
  unfold intStage
  by_cases hc : df.hasCol c
  · rw [if_pos hc]
    have hnn : lookupD policy c ≠ .null := by
      intro he
      have hok := h hc
      rw [he] at hok
      simp [astypeInt, Except.isOk, Except.toBool] at hok
    rw [if_neg hnn]
    have hall : ∀ x ∈ fillna ((df.getColD c).map toNumericCoerce) (lookupD policy c),
        (astypeInt x).isOk = true := by
      intro x hx
      simp only [fillna, List.mem_map] at hx
      obtain ⟨z, hz, hxz⟩ := hx
      by_cases hzn : z = Value.null
      · rw [if_pos hzn] at hxz
        rw [← hxz]
        exact h hc
      · rw [if_neg hzn] at hxz
        obtain ⟨y, _, hyz⟩ := hz
        rw [← hxz, ← hyz]
        exact toNumericCoerce_intable y (by rw [hyz]; exact hzn)
    obtain ⟨ys, hys⟩ := mapME_ok_of_forall astypeInt
        (fillna ((df.getColD c).map toNumericCoerce) (lookupD policy c)) hall
    rw [hys]
    exact ⟨_, rfl⟩
  · rw [if_neg hc]
    exact ⟨_, rfl⟩

theorem transform_df_total (key : List Nat) (policy : Policy) (df fd : DataFrame)
    (hfd : fill_defaults df policy = .ok fd)
    (hid : fd.hasCol "id" = true ∨
      (fd.hasCol "pickup_datetime" = true ∧ fd.hasCol "trip_distance" = true))
    (hdt1 : (toDatetimeScalar (lookupD policy "pickup_datetime")).isOk = true)
    (hdt2 : (toDatetimeScalar (lookupD policy "dropoff_datetime")).isOk = true)
    (htd : lookupD policy "trip_distance" ≠ .null)
    (hpc : (astypeInt (lookupD policy "passenger_count")).isOk = true)
    (hfa : lookupD policy "fare_amount" ≠ .null) :
    ∃ t, transform_df key policy df = .ok t := by
  obtain ⟨d1, h1⟩ := idStage_total key fd hid
  obtain ⟨d2, h2⟩ := dtStage_total policy d1 "pickup_datetime" (fun _ => hdt1)
  obtain ⟨d3, h3⟩ := dtStage_total policy d2 "dropoff_datetime" (fun _ => hdt2)
  obtain ⟨d4, h4⟩ := numStage_total policy d3 "trip_distance" (fun _ => htd)
  obtain ⟨d5, h5⟩ := intStage_total policy d4 "passenger_count" (fun _ => hpc)
  obtain ⟨d6, h6⟩ := numStage_total policy d5 "fare_amount" (fun _ => hfa)
  refine ⟨d6, ?_⟩
  unfold transform_df
  simp only [hfd, h1, h2, h3, h4, h5, h6, Bind.bind, Except.bind]

/-! ## Projection lemmas -/

theorem ensure_fold_nRows (l : List String) (df : DataFrame) :
    (l.foldl (fun d c => if d.hasCol c then d else d.setColScalar c .null) df).nRows = df.nRows := by
  induction l generalizing df with
  | nil => rfl
  | cons c l ih =>
    rw [List.foldl_cons, ih]
    split <;> rfl

theorem ensure_fold_notmem (l : List String) (df : DataFrame) (c : String) (h : c ∉ l) :
    (l.foldl (fun d c => if d.hasCol c then d else d.setColScalar c .null) df).getCol? c =
      df.getCol? c := by
  induction l generalizing df with
  | nil => rfl
  | cons c0 l ih =>
    simp only [List.mem_cons, not_or] at h
    rw [List.foldl_cons, ih _ h.2]
    split
    · rfl
    · exact getCol?_setCol_ne _ _ _ _ h.1

theorem ensure_fold_present (l : List String) (df : DataFrame) (c : String)
    (hpres : df.hasCol c = true) :
    (l.foldl (fun d c => if d.hasCol c then d else d.setColScalar c .null) df).getCol? c =
      df.getCol? c := by
  induction l generalizing df with
  | nil => rfl
  | cons c0 l ih =>
    rw [List.foldl_cons]
    by_cases hcc : c0 = c
    · subst hcc
      rw [if_pos hpres]
      exact ih df hpres
    · by_cases hh : df.hasCol c0
      · rw [if_pos hh]
        exact ih df hpres
      · rw [if_neg hh]
        rw [ih _ (by
          simp only [DataFrame.hasCol, DataFrame.setColScalar,
            getCol?_setCol_ne _ _ _ _ (Ne.symm hcc)]
          exact hpres)]
        exact getCol?_setCol_ne _ _ _ _ (Ne.symm hcc)

theorem ensure_fold_absent (l : List String) (df : DataFrame) (c : String)
    (hnd : l.Nodup) (hc : c ∈ l) (habs : df.hasCol c = false) :
    (l.foldl (fun d c => if d.hasCol c then d else d.setColScalar c .null) df).getCol? c =
      some (List.replicate df.nRows .null) := by
  induction l generalizing df with
  | nil => cases hc
  | cons c0 l ih =>
    simp only [List.nodup_cons] at hnd
    rw [List.foldl_cons]
    by_cases hcc : c0 = c
    · subst hcc
      rw [if_neg (by simp [habs])]
      rw [ensure_fold_notmem l _ c0 hnd.1]
      exact getCol?_setCol_self _ _ _
    · have hcl : c ∈ l := by
        rcases List.mem_cons.mp hc with he | he
        · exact absurd he.symm hcc
        · exact he
      by_cases hh : df.hasCol c0
      · rw [if_pos hh]
        exact ih _ hnd.2 hcl habs
      · rw [if_neg hh]
        rw [ih _ hnd.2 hcl (by
          simp only [DataFrame.hasCol, DataFrame.setColScalar,
            getCol?_setCol_ne _ _ _ _ (Ne.symm hcc)]
          exact habs)]
        rfl

theorem find?_pairs (l : List String) (g : String → List Value) (c : String) (hc : c ∈ l) :
    ((l.map (fun x => (x, g x))).find? (fun p => p.1 == c)).map (fun p => p.2) = some (g c) := by
  induction l with
  | nil => cases hc
  | cons d l ih =>
    by_cases hdc : d = c
    · subst hdc
      simp [List.find?]
    · have hb : (d == c) = false := by simp [hdc]
      simp only [List.map_cons, List.find?, hb]
      refine ih ?_
      rcases List.mem_cons.mp hc with he | he
      · exact absurd he.symm hdc
      · exact he

theorem project_names (df : DataFrame) : (project df).cols.map Prod.fst = target_cols := by
  simp only [project, List.map_map]
  exact List.map_id target_cols

theorem project_nRows (df : DataFrame) : (project df).nRows = df.nRows := rfl

theorem project_getCol? (df : DataFrame) (c : String) (hc : c ∈ target_cols) :
    (project df).getCol? c = some (df.getColD c) :=
  find?_pairs target_cols _ c hc

theorem zipWith_get? (f : Value → Value → Value) (l1 l2 : List Value) (i : Nat) :
    (List.zipWith f l1 l2).get? i =
      match l1.get? i, l2.get? i with
      | some a, some b => some (f a b)
      | _, _ => none := by
  induction l1 generalizing l2 i with
  | nil =>
    cases h2 : l2.get? i <;> simp
  | cons a l1 ih =>
    cases l2 with
    | nil =>
      cases h1 : (a :: l1).get? i <;> simp
    | cons b l2 =>
      cases i with
      | zero => rfl
      | succ n => exact ih l2 n

/-! ## Trace lemmas -/

theorem metricsOf_append (stage : String) (l1 l2 : List Effect) :
    metricsOf stage (l1 ++ l2) = metricsOf stage l1 ++ metricsOf stage l2 := by
  induction l1 with
  | nil => rfl
  | cons e l ih =>
    cases e with
    | metric r s n note =>
      simp only [List.cons_append, metricsOf]
      split <;> simp [ih]
    | pgInsert k => simpa [metricsOf] using ih
    | chInsert tb d => simpa [metricsOf] using ih
    | pgTruncate => simpa [metricsOf] using ih

theorem chInsertsOf_append (l1 l2 : List Effect) :
    chInsertsOf (l1 ++ l2) = chInsertsOf l1 ++ chInsertsOf l2 := by
  induction l1 with
  | nil => rfl
  | cons e l ih =>
    cases e with
    | metric r s n note => simpa [chInsertsOf] using ih
    | pgInsert k => simpa [chInsertsOf] using ih
    | chInsert tb d => simp [chInsertsOf, ih]
    | pgTruncate => simpa [chInsertsOf] using ih

/-! ## Hex-digest shape -/

theorem nib_mem (n : Nat) : nib n ∈ hexDigits := by
  have h : n % 16 < 16 := Nat.mod_lt _ (by norm_num)
  unfold nib
  set k := n % 16 with hk
  interval_cases k <;> decide

theorem wordHex_mem (w : Nat) : ∀ ch ∈ wordHex w, ch ∈ hexDigits := by
  intro ch hch
  simp only [wordHex, List.mem_cons, List.not_mem_nil, or_false] at hch
  rcases hch with h | h | h | h | h | h | h | h <;> (subst h; exact nib_mem _)

theorem mem_append_eight {α : Type} (x : α) (l1 l2 l3 l4 l5 l6 l7 l8 : List α)
    (h : x ∈ l1 ++ l2 ++ l3 ++ l4 ++ l5 ++ l6 ++ l7 ++ l8) :
    x ∈ l1 ∨ x ∈ l2 ∨ x ∈ l3 ∨ x ∈ l4 ∨ x ∈ l5 ∨ x ∈ l6 ∨ x ∈ l7 ∨ x ∈ l8 := by
  simp only [List.mem_append] at h
  tauto

theorem digestHex_length (st : H8) : (digestHex st).length = 64 := rfl

theorem digestHex_mem (st : H8) : ∀ ch ∈ (digestHex st).data, ch ∈ hexDigits := by
  intro ch hch
  rcases mem_append_eight ch _ _ _ _ _ _ _ _ hch with h | h | h | h | h | h | h | h <;>
    exact wordHex_mem _ ch h

/-! ## Claims -/

/-- C2: `hmac_hash` is deterministic — two calls on the same value under the
same key return the same digest, and transforming equal staged batches twice
(same key, same policy) yields equal results, id tokens included; the code
derives no salt or randomness, so in this pure embedding both are
congruences. -/
theorem C2_determinism (key : List Nat) (policy : Policy) (v : Value)
    (df1 df2 : DataFrame) (h : df1 = df2) :
    hmac_hash key v = hmac_hash key v ∧
    transform_df key policy df1 = transform_df key policy df2 :=
  ⟨rfl, by rw [h]⟩

theorem C2_determinism_witness :
    dfScenario = dfScenario ∧
    (hmac_hash keyEx (.str "a") = hmac_hash keyEx (.str "a") ∧
      transform_df keyEx polScenario dfScenario = transform_df keyEx polScenario dfScenario) :=
  ⟨rfl, C2_determinism keyEx polScenario (.str "a") dfScenario dfScenario rfl⟩

/-- C4: when the staging read is empty, a `transform`-mode run emits exactly
the single zero-row transform Metric, performs no analytical-record insert,
and ends there. -/
theorem C4_empty_staging (key : List Nat) (policy : Policy) (runId : String)
    (csv : Option DataFrame) (staged : DataFrame) (h : staged.nRows = 0) :
    mainRun key policy .transform runId csv staged =
      ([.metric runId "transform" 0 "no rows"], .ok ()) := by
  simp [mainRun, transformBranch, h]

theorem C4_empty_staging_witness :
    dfEmpty.nRows = 0 ∧
    mainRun keyEx polFull .transform "run-1" none dfEmpty =
      ([.metric "run-1" "transform" 0 "no rows"], .ok ()) :=
  ⟨rfl, C4_empty_staging keyEx polFull "run-1" none dfEmpty rfl⟩

/-- C6: the anonymizer returns `None` on null input and otherwise the
lowercase hex HMAC-SHA256 digest of the value's string form under the
process key — a total function whose output is always 64 lowercase hex
characters. -/
theorem C6_hash_contract (key : List Nat) :
    hmac_hash key .null = none ∧
    ∀ v, v ≠ .null →
      hmac_hash key v = some (hmacSha256Hex key (utf8Encode (pyStr v))) ∧
      (hmacSha256Hex key (utf8Encode (pyStr v))).length = 64 ∧
      ∀ ch ∈ (hmacSha256Hex key (utf8Encode (pyStr v))).data, ch ∈ hexDigits := by
  refine ⟨rfl, fun v hv => ⟨?_, digestHex_length _, digestHex_mem _⟩⟩
  unfold hmac_hash
  rw [if_neg hv]

theorem C6_hash_contract_witness :
    (Value.str "a" ≠ Value.null) ∧
    (hmac_hash keyEx (Value.str "a") =
        some (hmacSha256Hex keyEx (utf8Encode (pyStr (Value.str "a")))) ∧
      (hmacSha256Hex keyEx (utf8Encode (pyStr (Value.str "a")))).length = 64 ∧
      ∀ ch ∈ (hmacSha256Hex keyEx (utf8Encode (pyStr (Value.str "a")))).data, ch ∈ hexDigits) :=
  ⟨by decide, (C6_hash_contract keyEx).2 (Value.str "a") (by decide)⟩

/-- C8 is false as stated at this input: a policy entry carrying a null
default for a column the batch does have reaches `df[col].fillna(None)`,
which raises `ValueError` unconditionally, so the fill pass fails instead
of performing any fill for that column. -/
theorem C8_counterexample :
    dfMut.hasCol "passenger_count" = true ∧
    lookup? polNullDef "passenger_count" = some .null ∧
    fill_defaults dfMut polNullDef = .error "fillna: value None for passenger_count" :=
  ⟨by decide, by decide, by rfl⟩

/-- C8 (amended): when the default-fill pass returns — which requires that no
policy entry holds a null default for a column the batch has, since
`fillna(None)` raises `ValueError` there — it fills nulls of every
policy-named column that exists, creates every policy-named column that is
absent as the default broadcast over all rows, and leaves unnamed columns
unchanged; every policy entry with a null default names an absent column. -/
theorem C8_fill_defaults_contract (policy : Policy) (df t : DataFrame)
    (hnd : (policy.map Prod.fst).Nodup)
    (hok : fill_defaults df policy = .ok t) :
    (∀ c v col, lookup? policy c = some v → df.getCol? c = some col →
      t.getCol? c = some (fillna col v)) ∧
    (∀ c v, lookup? policy c = some v → df.getCol? c = none →
      t.getCol? c = some (List.replicate df.nRows v)) ∧
    (∀ c, lookup? policy c = none → t.getCol? c = df.getCol? c) ∧
    (∀ c, lookup? policy c = some .null → df.hasCol c = false) :=
  ⟨fun c v col hv hcol => fill_defaults_named_present policy df t c v col hnd hv hcol hok,
   fun c v hv habs => fill_defaults_named_absent policy df t c v hnd hv habs hok,
   fun c h => fill_defaults_unnamed policy df t c h hok,
   fun c hv => fill_defaults_ok_null_absent policy df t c hv hok⟩

theorem C8_fill_defaults_contract_witness :
    ((polFull.map Prod.fst).Nodup ∧
      fill_defaults dfScenario polFull = .ok dfScenarioFilled) ∧
    ((∀ c v col, lookup? polFull c = some v → dfScenario.getCol? c = some col →
      dfScenarioFilled.getCol? c = some (fillna col v)) ∧
    (∀ c v, lookup? polFull c = some v → dfScenario.getCol? c = none →
      dfScenarioFilled.getCol? c = some (List.replicate dfScenario.nRows v)) ∧
    (∀ c, lookup? polFull c = none →
      dfScenarioFilled.getCol? c = dfScenario.getCol? c) ∧
    (∀ c, lookup? polFull c = some .null → dfScenario.hasCol c = false)) :=
  ⟨⟨by decide, by rfl⟩,
    C8_fill_defaults_contract polFull dfScenario dfScenarioFilled (by decide) (by rfl)⟩

/-- C9 (counterexample): `fill_defaults` mutates the caller's batch in place —
after the call the caller's frame differs from the frame passed in, refuting
"the caller's batch value is unchanged after the call". -/
theorem C9_fill_defaults_mutates : (fill_defaults_call dfMut polMut).1 ≠ dfMut := by decide

/-- C9 (amended): the transformations are value-deterministic but operate in
place — after a completed fill the caller's batch equals the returned batch;
and per-value coercion failures never fail the batch: once the fill pass
returns (a null default on a present column raises `ValueError` instead),
with identity prerequisites met and well-typed policy defaults,
`transform_df` succeeds whatever the cell values are. -/
theorem C9_frame_semantics (key : List Nat) (policy : Policy) (df fd : DataFrame)
    (hfd : fill_defaults df policy = .ok fd)
    (hid : fd.hasCol "id" = true ∨
      (fd.hasCol "pickup_datetime" = true ∧ fd.hasCol "trip_distance" = true))
    (hdt1 : (toDatetimeScalar (lookupD policy "pickup_datetime")).isOk = true)
    (hdt2 : (toDatetimeScalar (lookupD policy "dropoff_datetime")).isOk = true)
    (htd : lookupD policy "trip_distance" ≠ .null)
    (hpc : (astypeInt (lookupD policy "passenger_count")).isOk = true)
    (hfa : lookupD policy "fare_amount" ≠ .null) :
    fill_defaults_call df policy = (fd, .ok fd) ∧
    ∃ t, transform_df key policy df = .ok t :=
  ⟨fill_defaults_call_ok policy df fd hfd,
   transform_df_total key policy df fd hfd hid hdt1 hdt2 htd hpc hfa⟩

theorem C9_frame_semantics_witness :
    (fill_defaults dfScenario polFull = .ok dfScenarioFilled ∧
      (dfScenarioFilled.hasCol "pickup_datetime" = true ∧
        dfScenarioFilled.hasCol "trip_distance" = true)) ∧
    (fill_defaults_call dfScenario polFull = (dfScenarioFilled, .ok dfScenarioFilled) ∧
      ∃ t, transform_df keyEx polFull dfScenario = .ok t) :=
  ⟨⟨by rfl, by decide, by decide⟩,
    C9_frame_semantics keyEx polFull dfScenario dfScenarioFilled (by rfl)
      (Or.inr ⟨by decide, by decide⟩)
      (by decide) (by decide) (by decide) (by decide) (by decide)⟩

/-- C1 is false as stated at this input: the contract column `id` is absent
from the source batch, yet the projected batch written to the store carries a
synthesized digest there — not null in every row. -/
theorem C1_counterexample :
    dfNoId.hasCol "id" = false ∧
    (transform_df keyEx polNoId dfNoId).toOption.map
        (fun t => (project (ensureTargets t)).getCol? "id") =
      some (some [.str "bfcbf1fd76ecb94efa4281a523c4e5543d4af0142ed77b9390cfb1033987d995"]) ∧
    Value.str "bfcbf1fd76ecb94efa4281a523c4e5543d4af0142ed77b9390cfb1033987d995" ≠ .null :=
  ⟨by decide, by decide, by decide⟩

/-- C1 (amended): the batch written by the transform stage has exactly the
nine contract columns in contract order; every contract column absent from
the transformed batch (after identity synthesis and policy fill) is added
all-null, and every contract column present keeps its transformed values. -/
theorem C1_contract_projection (key : List Nat) (policy : Policy) (staged t : DataFrame)
    (hne : staged.nRows ≠ 0) (hok : transform_df key policy staged = .ok t) :
    (project (ensureTargets t)).cols.map Prod.fst = target_cols ∧
    (∀ c, c ∈ target_cols → t.hasCol c = false →
      (project (ensureTargets t)).getCol? c = some (List.replicate t.nRows .null)) ∧
    (∀ c, c ∈ target_cols → t.hasCol c = true →
      (project (ensureTargets t)).getCol? c = t.getCol? c) := by
  refine ⟨project_names _, ?_, ?_⟩
  · intro c hc habs
    have he : (ensureTargets t).getCol? c = some (List.replicate t.nRows .null) :=
      ensure_fold_absent target_cols t c (by decide) hc habs
    rw [project_getCol? _ c hc]
    simp [DataFrame.getColD, he]
  · intro c hc hpres
    have he : (ensureTargets t).getCol? c = t.getCol? c :=
      ensure_fold_present target_cols t c hpres
    obtain ⟨col, hcol⟩ := Option.isSome_iff_exists.mp hpres
    rw [project_getCol? _ c hc]
    simp [DataFrame.getColD, he, hcol]

theorem C1_contract_projection_witness :
    dfNoId.nRows ≠ 0 ∧
    ∃ t, transform_df keyEx polNoId dfNoId = .ok t ∧
      (project (ensureTargets t)).cols.map Prod.fst = target_cols := by
  have hne : dfNoId.nRows ≠ 0 := by decide
  have hok : (transform_df keyEx polNoId dfNoId).isOk = true := by decide
  cases htr : transform_df keyEx polNoId dfNoId with
  | error e =>
    rw [htr] at hok
    simp [Except.isOk, Except.toBool] at hok
  | ok t =>
    exact ⟨hne, t, rfl, (C1_contract_projection keyEx polNoId dfNoId t hne htr).1⟩

/-- C5: with no `id` column after policy fill, the stage sets each row's id
to the keyed hash of `str(pickup_datetime) + "|" + str(trip_distance)` over
the filled batch, so rows agreeing on those two fields receive the identical
token. -/
theorem C5_synth_identity (key : List Nat) (policy : Policy) (df fd t : DataFrame)
    (hfd : fill_defaults df policy = .ok fd)
    (hid : fd.hasCol "id" = false)
    (hok : transform_df key policy df = .ok t) :
    ∃ pu td,
      fd.getCol? "pickup_datetime" = some pu ∧
      fd.getCol? "trip_distance" = some td ∧
      t.getCol? "id" =
        some (List.zipWith (fun p d => hmac_hashV key (.str (pyStr p ++ "|" ++ pyStr d))) pu td) ∧
      (∀ i j, pu.get? i = pu.get? j → td.get? i = td.get? j →
        (List.zipWith (fun p d => hmac_hashV key (.str (pyStr p ++ "|" ++ pyStr d))) pu td).get? i =
          (List.zipWith (fun p d => hmac_hashV key (.str (pyStr p ++ "|" ++ pyStr d))) pu td).get? j) := by
  obtain ⟨fd', d1, d2, d3, d4, d5, hfd', h1, h2, h3, h4, h5, h6⟩ :=
    transform_df_inv key policy df t hok
  rw [hfd] at hfd'
  injection hfd' with hfe
  subst hfe
  obtain ⟨pu, td, hpu, htd, hd1⟩ := idStage_synth key fd d1 h1 hid
  refine ⟨pu, td, hpu, htd, ?_, ?_⟩
  · rw [(numStage_ok policy d5 t _ h6).2 "id" (by decide),
      (intStage_ok policy d4 d5 _ h5).2 "id" (by decide),
      (numStage_ok policy d3 d4 _ h4).2 "id" (by decide),
      (dtStage_ok policy d2 d3 _ h3).2 "id" (by decide),
      (dtStage_ok policy d1 d2 _ h2).2 "id" (by decide)]
    exact hd1
  · intro i j hpuij htdij
    rw [zipWith_get?, zipWith_get?, hpuij, htdij]

theorem C5_synth_identity_witness :
    (fill_defaults dfTwin polFull = .ok dfTwinFilled ∧
      dfTwinFilled.hasCol "id" = false) ∧
    ∃ t, transform_df keyEx polFull dfTwin = .ok t ∧
      ∃ pu td,
        dfTwinFilled.getCol? "pickup_datetime" = some pu ∧
        dfTwinFilled.getCol? "trip_distance" = some td ∧
        t.getCol? "id" =
          some (List.zipWith (fun p d => hmac_hashV keyEx (.str (pyStr p ++ "|" ++ pyStr d))) pu td) ∧
        (∀ i j, pu.get? i = pu.get? j → td.get? i = td.get? j →
          (List.zipWith (fun p d => hmac_hashV keyEx (.str (pyStr p ++ "|" ++ pyStr d))) pu td).get? i =
            (List.zipWith (fun p d => hmac_hashV keyEx (.str (pyStr p ++ "|" ++ pyStr d))) pu td).get? j) := by
  have hfd : fill_defaults dfTwin polFull = .ok dfTwinFilled := by rfl
  have hid : dfTwinFilled.hasCol "id" = false := by decide
  have hok : (transform_df keyEx polFull dfTwin).isOk = true := by decide
  cases htr : transform_df keyEx polFull dfTwin with
  | error e =>
    rw [htr] at hok
    simp [Except.isOk, Except.toBool] at hok
  | ok t =>
    exact ⟨⟨hfd, hid⟩, t, rfl,
      C5_synth_identity keyEx polFull dfTwin dfTwinFilled t hfd hid htr⟩

/-- C10: the transform stage preserves the row count — the projected batch
written to the store has exactly as many rows as the staged batch, and the
transform Metric reports that same number. -/
theorem C10_row_count (key : List Nat) (policy : Policy) (runId : String)
    (staged t : DataFrame) (hne : ¬staged.nRows = 0)
    (hok : transform_df key policy staged = .ok t) :
    (project (ensureTargets t)).nRows = staged.nRows ∧
    transformBranch key policy runId staged =
      ([.chInsert "processed_records" (project (ensureTargets t)),
        .metric runId "transform" staged.nRows "Postgres -> ClickHouse"], .ok ()) := by
  have hen : (ensureTargets t).nRows = t.nRows := ensure_fold_nRows target_cols t
  have hn : (project (ensureTargets t)).nRows = staged.nRows := by
    rw [project_nRows, hen, transform_df_nRows key policy staged t hok]
  refine ⟨hn, ?_⟩
  unfold transformBranch
  rw [if_neg hne, hok]
  have hp0 : ¬((project (ensureTargets t)).nRows = 0) := by
    rw [hn]
    exact hne
  simp [write_to_clickhouse, hp0, hn, hne]

theorem C10_row_count_witness :
    ¬dfTwin.nRows = 0 ∧
    ∃ t, transform_df keyEx polFull dfTwin = .ok t ∧
      (project (ensureTargets t)).nRows = dfTwin.nRows := by
  have hne : ¬dfTwin.nRows = 0 := by decide
  have hok : (transform_df keyEx polFull dfTwin).isOk = true := by decide
  cases htr : transform_df keyEx polFull dfTwin with
  | error e =>
    rw [htr] at hok
    simp [Except.isOk, Except.toBool] at hok
  | ok t =>
    exact ⟨hne, t, rfl, (C10_row_count keyEx polFull "run-2" dfTwin t hne htr).1⟩

theorem fillna_coerce_cell (col : List Value) (i : Nat) (s : String) (v : Value)
    (hcell : col.get? i = some (.str s)) (hnum : parseNum? s = none) :
    (fillna (col.map toNumericCoerce) v).get? i = some v := by
  rw [fillna_get?, List.get?_map, hcell]
  simp [toNumericCoerce, hnum]

/-- C3 is false as stated at this input: a non-numeric string in
`passenger_count` under the fractional policy default 0.5 is transformed to
the literal integer 0 — `astype(int)` truncates the filled default — not to
the policy default. -/
theorem C3_counterexample :
    lookup? polPc "passenger_count" = some (.float (mkRat 1 2)) ∧
    toNumericCoerce (.str "abc") = .null ∧
    (transform_df keyEx polPc dfPc).toOption.map (fun t => t.getCol? "passenger_count") =
      some (some [.int 0]) ∧
    Value.int 0 ≠ Value.float (mkRat 1 2) ∧
    ratTrunc (mkRat 1 2) = 0 :=
  ⟨by decide, by decide, by decide, by decide, by decide⟩

/-- C3 (amended): a cell of a numeric-contract column holding a non-numeric
string resolves to the column's policy default for `trip_distance` and
`fare_amount`, and to the policy default cast by `astype(int)` for
`passenger_count`; it never becomes a spurious zero unless that cast
produces one. -/
theorem C3_fill_before_coerce (key : List Nat) (policy : Policy) (df t : DataFrame)
    (c : String) (col : List Value) (i : Nat) (s : String) (v : Value)
    (hcol : df.getCol? c = some col) (hcell : col.get? i = some (.str s))
    (hnum : parseNum? s = none) (hv : lookup? policy c = some v)
    (hok : transform_df key policy df = .ok t) :
    ((c = "trip_distance" ∨ c = "fare_amount") →
      ∃ col', t.getCol? c = some col' ∧ col'.get? i = some v) ∧
    (c = "passenger_count" → ∀ w, astypeInt v = .ok w →
      ∃ col', t.getCol? c = some col' ∧ col'.get? i = some w) := by
  obtain ⟨fd, d1, d2, d3, d4, d5, hfd, h1, h2, h3, h4, h5, h6⟩ :=
    transform_df_inv key policy df t hok
  obtain ⟨colf, hcolf, hcellf⟩ :=
    fill_defaults_cell_nonnull policy df fd c col i (.str s) hcol hcell (by simp) hfd
  have hlk : lookupD policy c = v := by simp [lookupD, hv]
  constructor
  · rintro (rfl | rfl)
    · have hc1 : d1.getCol? "trip_distance" = some colf := by
        rw [(idStage_ok key _ d1 h1).2 _ (by decide)]
        exact hcolf
      have hc2 : d2.getCol? "trip_distance" = some colf := by
        rw [(dtStage_ok policy d1 d2 _ h2).2 _ (by decide)]
        exact hc1
      have hc3 : d3.getCol? "trip_distance" = some colf := by
        rw [(dtStage_ok policy d2 d3 _ h3).2 _ (by decide)]
        exact hc2
      obtain ⟨hnn, hc4⟩ := numStage_self policy d3 d4 _ colf h4 hc3
      have hct : t.getCol? "trip_distance" =
          some (fillna (colf.map toNumericCoerce) (lookupD policy "trip_distance")) := by
        rw [(numStage_ok policy d5 t _ h6).2 _ (by decide),
          (intStage_ok policy d4 d5 _ h5).2 _ (by decide)]
        exact hc4
      refine ⟨_, hct, ?_⟩
      rw [hlk]
      exact fillna_coerce_cell colf i s v hcellf hnum
    · have hc1 : d1.getCol? "fare_amount" = some colf := by
        rw [(idStage_ok key _ d1 h1).2 _ (by decide)]
        exact hcolf
      have hc2 : d2.getCol? "fare_amount" = some colf := by
        rw [(dtStage_ok policy d1 d2 _ h2).2 _ (by decide)]
        exact hc1
      have hc3 : d3.getCol? "fare_amount" = some colf := by
        rw [(dtStage_ok policy d2 d3 _ h3).2 _ (by decide)]
        exact hc2
      have hc4 : d4.getCol? "fare_amount" = some colf := by
        rw [(numStage_ok policy d3 d4 _ h4).2 _ (by decide)]
        exact hc3
      have hc5 : d5.getCol? "fare_amount" = some colf := by
        rw [(intStage_ok policy d4 d5 _ h5).2 _ (by decide)]
        exact hc4
      obtain ⟨hnn, hct⟩ := numStage_self policy d5 t _ colf h6 hc5
      refine ⟨_, hct, ?_⟩
      rw [hlk]
      exact fillna_coerce_cell colf i s v hcellf hnum
  · rintro rfl w hw
    have hc1 : d1.getCol? "passenger_count" = some colf := by
      rw [(idStage_ok key _ d1 h1).2 _ (by decide)]
      exact hcolf
    have hc2 : d2.getCol? "passenger_count" = some colf := by
      rw [(dtStage_ok policy d1 d2 _ h2).2 _ (by decide)]
      exact hc1
    have hc3 : d3.getCol? "passenger_count" = some colf := by
      rw [(dtStage_ok policy d2 d3 _ h3).2 _ (by decide)]
      exact hc2
    have hc4 : d4.getCol? "passenger_count" = some colf := by
      rw [(numStage_ok policy d3 d4 _ h4).2 _ (by decide)]
      exact hc3
    obtain ⟨hnn, xs, hmap, hc5⟩ := intStage_self policy d4 d5 _ colf h5 hc4
    have hct : t.getCol? "passenger_count" = some xs := by
      rw [(numStage_ok policy d5 t _ h6).2 _ (by decide)]
      exact hc5
    have hcellv : (fillna (colf.map toNumericCoerce)
        (lookupD policy "passenger_count")).get? i = some v := by
      rw [hlk]
      exact fillna_coerce_cell colf i s v hcellf hnum
    obtain ⟨y, hy, hxy⟩ := mapME_ok_get? astypeInt _ xs hmap i v hcellv
    have hyw : y = w := by
      rw [hy] at hw
      cases hw
      rfl
    exact ⟨xs, hct, by rw [hxy, hyw]⟩

theorem C3_fill_before_coerce_witness :
    (dfScenario.getCol? "trip_distance" = some [.str "abc"] ∧
      parseNum? "abc" = none ∧
      lookup? polScenario "trip_distance" = some (.float 1)) ∧
    (∃ t, transform_df keyEx polScenario dfScenario = .ok t ∧
      ∃ col', t.getCol? "trip_distance" = some col' ∧ col'.get? 0 = some (.float 1)) ∧
    (transform_df keyEx polScenario dfScenario).toOption.map
        (fun t => t.getCol? "passenger_count") = some (some [.int 1]) ∧
    (transform_df keyEx polScenario dfScenario).toOption.map
        (fun t => (t.getColD "id").get? 0) =
      some (some (.str "545a96e164c5cc88d394c14077ee966ff75ea4c8dbfa53d26e1bb283b8dceff4")) := by
  refine ⟨⟨by decide, by decide, by decide⟩, ?_, by decide, by decide⟩
  have hok : (transform_df keyEx polScenario dfScenario).isOk = true := by decide
  cases htr : transform_df keyEx polScenario dfScenario with
  | error e =>
    rw [htr] at hok
    simp [Except.isOk, Except.toBool] at hok
  | ok t =>
    refine ⟨t, rfl, ?_⟩
    exact (C3_fill_before_coerce keyEx polScenario dfScenario t "trip_distance"
      [.str "abc"] 0 "abc" (.float 1) (by decide) (by decide) (by decide) (by decide) htr).1
      (Or.inl rfl)

theorem ingest_trace_metrics (runId : String) (csv : Option DataFrame) :
    metricsOf "ingest" ((ingest_csv_to_postgres csv).1 ++
        [.metric runId "ingest" (ingest_csv_to_postgres csv).2 "CSV -> Postgres"]) =
      [(runId, (ingest_csv_to_postgres csv).2)] ∧
    metricsOf "transform" ((ingest_csv_to_postgres csv).1 ++
        [.metric runId "ingest" (ingest_csv_to_postgres csv).2 "CSV -> Postgres"]) = [] ∧
    ∀ r st n note, Effect.metric r st n note ∈ ((ingest_csv_to_postgres csv).1 ++
        [.metric runId "ingest" (ingest_csv_to_postgres csv).2 "CSV -> Postgres"]) → r = runId := by
  cases csv with
  | none =>
    refine ⟨by simp [ingest_csv_to_postgres, metricsOf],
      by simp [ingest_csv_to_postgres, metricsOf], ?_⟩
    intro r st n note hmem
    simp [ingest_csv_to_postgres] at hmem
    exact hmem.1
  | some d =>
    by_cases hd : d.nRows = 0
    · refine ⟨by simp [ingest_csv_to_postgres, metricsOf, hd],
        by simp [ingest_csv_to_postgres, metricsOf, hd], ?_⟩
      intro r st n note hmem
      simp [ingest_csv_to_postgres, hd] at hmem
      exact hmem.1
    · refine ⟨by simp [ingest_csv_to_postgres, metricsOf, hd],
        by simp [ingest_csv_to_postgres, metricsOf, hd], ?_⟩
      intro r st n note hmem
      simp [ingest_csv_to_postgres, hd] at hmem
      exact hmem.1

theorem transform_trace_metrics (key : List Nat) (policy : Policy) (runId : String)
    (staged : DataFrame) (hok : (transformBranch key policy runId staged).2 = .ok ()) :
    metricsOf "transform" (transformBranch key policy runId staged).1 = [(runId, staged.nRows)] ∧
    metricsOf "ingest" (transformBranch key policy runId staged).1 = [] ∧
    ∀ r st n note, Effect.metric r st n note ∈ (transformBranch key policy runId staged).1 →
      r = runId := by
  by_cases h0 : staged.nRows = 0
  · have hbr : transformBranch key policy runId staged =
        ([.metric runId "transform" 0 "no rows"], .ok ()) := by
      unfold transformBranch
      rw [if_pos h0]
    rw [hbr]
    refine ⟨by simp [metricsOf, h0], by simp [metricsOf], ?_⟩
    intro r st n note hmem
    simp at hmem
    exact hmem.1
  · obtain ⟨t, htr⟩ : ∃ t, transform_df key policy staged = .ok t := by
      have hok2 := hok
      unfold transformBranch at hok2
      rw [if_neg h0] at hok2
      cases htr2 : transform_df key policy staged with
      | error e =>
        rw [htr2] at hok2
        simp at hok2
      | ok t => exact ⟨t, rfl⟩
    have hen : (ensureTargets t).nRows = t.nRows := ensure_fold_nRows target_cols t
    have hn : (project (ensureTargets t)).nRows = staged.nRows := by
      rw [project_nRows, hen, transform_df_nRows key policy staged t htr]
    have hz : ¬(project (ensureTargets t)).nRows = 0 := by
      rw [hn]
      exact h0
    have hwr : write_to_clickhouse (project (ensureTargets t)) =
        ([.chInsert "processed_records" (project (ensureTargets t))],
          (project (ensureTargets t)).nRows) := by
      unfold write_to_clickhouse
      rw [if_neg hz]
    have hbr : transformBranch key policy runId staged =
        ((write_to_clickhouse (project (ensureTargets t))).1 ++
          [.metric runId "transform" (write_to_clickhouse (project (ensureTargets t))).2
            "Postgres -> ClickHouse"], .ok ()) := by
      unfold transformBranch
      rw [if_neg h0, htr]
    have hbr2 : (transformBranch key policy runId staged).1 =
        [.chInsert "processed_records" (project (ensureTargets t)),
          .metric runId "transform" (project (ensureTargets t)).nRows "Postgres -> ClickHouse"] := by
      rw [hbr, hwr]
      simp only [List.cons_append, List.nil_append]
    refine ⟨?_, ?_, ?_⟩
    · rw [hbr2]
      simp [metricsOf, hn]
    · rw [hbr2]
      simp [metricsOf]
    · intro r st n note hmem
      rw [hbr2] at hmem
      simp only [List.mem_cons, List.not_mem_nil, or_false] at hmem
      rcases hmem with h | h
      · cases h
      · cases h
        rfl

/-- C7: one run identifier is carried by every Metric of the run, and each
executed ingest or transform stage of a successfully completing run emits
exactly one Metric holding that stage's actual row count, zero included. -/
theorem C7_run_metrics (key : List Nat) (policy : Policy) (mode : Mode) (runId : String)
    (csv : Option DataFrame) (staged : DataFrame)
    (hok : (mainRun key policy mode runId csv staged).2 = .ok ()) :
    (∀ r st n note, Effect.metric r st n note ∈ (mainRun key policy mode runId csv staged).1 →
      r = runId) ∧
    metricsOf "ingest" (mainRun key policy mode runId csv staged).1 =
      (if mode = .ingest ∨ mode = .full then [(runId, (ingest_csv_to_postgres csv).2)] else []) ∧
    metricsOf "transform" (mainRun key policy mode runId csv staged).1 =
      (if mode = .transform ∨ mode = .full then [(runId, staged.nRows)] else []) := by
  obtain ⟨hi1, hi2, him⟩ := ingest_trace_metrics runId csv
  cases mode with
  | ingest =>
    have htrace : (mainRun key policy .ingest runId csv staged).1 =
        (ingest_csv_to_postgres csv).1 ++
          [.metric runId "ingest" (ingest_csv_to_postgres csv).2 "CSV -> Postgres"] := by
      simp [mainRun]
    rw [htrace, if_pos (by decide : (Mode.ingest = Mode.ingest ∨ Mode.ingest = Mode.full)),
      if_neg (by decide : ¬(Mode.ingest = Mode.transform ∨ Mode.ingest = Mode.full))]
    exact ⟨him, hi1, hi2⟩
  | transform =>
    have h2 : (transformBranch key policy runId staged).2 = .ok () := by
      have he : (mainRun key policy .transform runId csv staged).2 =
          (transformBranch key policy runId staged).2 := by
        simp [mainRun]
      rw [← he]
      exact hok
    obtain ⟨ht1, ht2, htm⟩ := transform_trace_metrics key policy runId staged h2
    have htrace : (mainRun key policy .transform runId csv staged).1 =
        (transformBranch key policy runId staged).1 := by
      simp [mainRun]
    rw [htrace,
      if_neg (by decide : ¬(Mode.transform = Mode.ingest ∨ Mode.transform = Mode.full)),
      if_pos (by decide : (Mode.transform = Mode.transform ∨ Mode.transform = Mode.full))]
    exact ⟨htm, ht2, ht1⟩
  | full =>
    have h2 : (transformBranch key policy runId staged).2 = .ok () := by
      have he : (mainRun key policy .full runId csv staged).2 =
          (transformBranch key policy runId staged).2 := by
        simp [mainRun]
      rw [← he]
      exact hok
    obtain ⟨ht1, ht2, htm⟩ := transform_trace_metrics key policy runId staged h2
    have htrace : (mainRun key policy .full runId csv staged).1 =
        ((ingest_csv_to_postgres csv).1 ++
          [.metric runId "ingest" (ingest_csv_to_postgres csv).2 "CSV -> Postgres"]) ++
          (transformBranch key policy runId staged).1 := by
      simp [mainRun]
    rw [htrace, if_pos (by decide : (Mode.full = Mode.ingest ∨ Mode.full = Mode.full)),
      if_pos (by decide : (Mode.full = Mode.transform ∨ Mode.full = Mode.full))]
    refine ⟨?_, ?_, ?_⟩
    · intro r st n note hmem
      rcases List.mem_append.mp hmem with h | h
      · exact him r st n note h
      · exact htm r st n note h
    · rw [metricsOf_append, hi1, ht2, List.append_nil]
    · rw [metricsOf_append, hi2, ht1, List.nil_append]
  | clear =>
    have htrace : (mainRun key policy .clear runId csv staged).1 = [Effect.pgTruncate] := by
      simp [mainRun]
    rw [htrace, if_neg (by decide : ¬(Mode.clear = Mode.ingest ∨ Mode.clear = Mode.full)),
      if_neg (by decide : ¬(Mode.clear = Mode.transform ∨ Mode.clear = Mode.full))]
    refine ⟨?_, by simp [metricsOf], by simp [metricsOf]⟩
    intro r st n note hmem
    simp only [List.mem_cons, List.not_mem_nil, or_false] at hmem
    cases hmem

theorem C7_run_metrics_witness :
    (mainRun keyEx polFull .transform "run-7" none dfEmpty).2 = .ok () ∧
    ((∀ r st n note,
        Effect.metric r st n note ∈ (mainRun keyEx polFull .transform "run-7" none dfEmpty).1 →
        r = "run-7") ∧
      metricsOf "ingest" (mainRun keyEx polFull .transform "run-7" none dfEmpty).1 =
        (if Mode.transform = Mode.ingest ∨ Mode.transform = Mode.full then
          [("run-7", (ingest_csv_to_postgres none).2)] else []) ∧
      metricsOf "transform" (mainRun keyEx polFull .transform "run-7" none dfEmpty).1 =
        (if Mode.transform = Mode.transform ∨ Mode.transform = Mode.full then
          [("run-7", dfEmpty.nRows)] else [])) := by
  have hok : ((mainRun keyEx polFull .transform "run-7" none dfEmpty).2).isOk = true := by decide
  cases hm : (mainRun keyEx polFull .transform "run-7" none dfEmpty).2 with
  | error e =>
    rw [hm] at hok
    simp [Except.isOk, Except.toBool] at hok
  | ok u =>
    cases u
    exact ⟨hm, C7_run_metrics keyEx polFull .transform "run-7" none dfEmpty hm⟩

end Etl
